import Mathlib

/-!
Shallow embedding of `src/script.js`, a single-page browser trivia game.

JavaScript strings are modelled as `List Char`. The browser cookie jar, the
`localStorage` blob, and the DOM elements the script manipulates are modelled
explicitly; the script's functions (`getCookie`, `setCookie`, `saveScore`,
`calculateScore`, `createAnswerOptions`, `displayQuestions`, `checkUsername`,
`newPlayer`, `handleFormSubmit`, `fetchQuestions`, `displayScores`) are
translated line by line. JavaScript runtime errors (uncaught exceptions from
`JSON.parse` on malformed input or method calls on non-objects) surface as
`Except JSError`.
-/

namespace TriviaGame

/-- Model of JavaScript `String.prototype.split(sep)` for a one-character
separator, on code-unit lists: `"a;b".split(';') = ["a","b"]`, and
`"".split(';') = [""]` (the result is never empty). Used by `getCookie`
(script.js line 167: `document.cookie.split(';')`). -/
def jsSplit (sep : Char) : List Char → List (List Char)
  | [] => [[]]
  | x :: xs =>
    match jsSplit sep xs with
    | [] => [[]]
    | s :: rest => if x = sep then [] :: s :: rest else (x :: s) :: rest

/-- Model of JavaScript `String.prototype.trim()`: drop whitespace from both
ends (script.js line 170: `cookies[i].trim()`). -/
def jsTrim (l : List Char) : List Char :=
  ((l.dropWhile Char.isWhitespace).reverse.dropWhile Char.isWhitespace).reverse

/-- Model of the JavaScript check `s.indexOf(pre) === 0` used by `getCookie`
(script.js line 171): does `s` start with `pre`? -/
def jsStartsWith : List Char → List Char → Bool
  | [], _ => true
  | _ :: _, [] => false
  | p :: ps, c :: cs => p == c && jsStartsWith ps cs

/-- JavaScript string truthiness: a string is truthy iff it is nonempty. -/
def jsTruthyStr (l : List Char) : Bool := !l.isEmpty

/-- Truthiness of `getCookie`'s result (`string | null`): `null` and the
empty string are falsy, every other string is truthy. -/
def truthyOpt : Option (List Char) → Bool
  | none => false
  | some v => jsTruthyStr v

/-- A live (unexpired) cookie in the browser's cookie jar. -/
structure Cookie where
  name : List Char
  value : List Char
deriving DecidableEq

/-- The string produced by the `document.cookie` getter: the live cookies
joined by a semicolon and a space, each as `name=value`. -/
def cookieHeader : List Cookie → List Char
  | [] => []
  | [c] => c.name ++ '=' :: c.value
  | c :: rest => c.name ++ '=' :: c.value ++ ';' :: ' ' :: cookieHeader rest

/-- Embeds `getCookie(name)` (script.js lines 165-178): split the
`document.cookie` string on `;`, trim each piece, and return the remainder of
the first piece that starts with `name=`, or `null` (here `none`) when no
piece matches. `cookieStr` is the current `document.cookie` string. -/
def getCookie (name : List Char) (cookieStr : List Char) : Option (List Char) :=
  let nameEQ := name ++ ['=']
  (jsSplit ';' cookieStr).findSome? fun piece =>
    let piece := jsTrim piece
    if jsStartsWith nameEQ piece then some (piece.drop nameEQ.length) else none

/-- Embeds the effect on the browser jar of `setCookie(name, value, days)`
(script.js lines 154-159): the assignment
`document.cookie = name=value; expires=<now + days·86400s>; path=/` makes the
browser store `value` under `name` with a future expiry (the script only calls
this with `days = 7`), replacing any existing cookie of that name. -/
def setCookie (name value : List Char) (days : Nat) (jar : List Cookie) : List Cookie :=
  jar.filter (fun c => c.name ≠ name) ++ [⟨name, value⟩]

/-- Embeds the jar effect of `newPlayer`'s cookie write (script.js line 200):
assigning `username=; expires=Thu, 01 Jan 1970 ...` sets an already-expired
cookie, which the browser treats as deletion of the `username` cookie. -/
def clearUsernameCookie (jar : List Cookie) : List Cookie :=
  jar.filter (fun c => c.name ≠ ("username".data))

/-- JSON values, as produced by `JSON.parse` on the localStorage blob. -/
inductive Json where
  | null
  | bool (b : Bool)
  | num (n : Int)
  | str (s : String)
  | arr (elems : List Json)
  | obj (fields : List (String × Json))

/-- JavaScript truthiness of a parsed JSON value, as tested by the
`JSON.parse(...) || []` pattern (script.js lines 186 and 227). -/
def Json.truthy : Json → Bool
  | .null => false
  | .bool b => b
  | .num n => n != 0
  | .str s => !s.isEmpty
  | .arr _ => true
  | .obj _ => true

/-- Uncaught JavaScript runtime errors the storage code can raise. -/
inductive JSError where
  | parseError
  | typeError
deriving DecidableEq

/-- State of the persisted `triviaScores` blob in localStorage: the key can be
absent, hold a string that is not valid JSON, or hold a string that parses to
a JSON value `j`. -/
inductive Blob where
  | absent
  | corrupt
  | val (j : Json)

/-- Model of `JSON.parse(localStorage.getItem("triviaScores"))` (script.js
lines 186 and 227). When the key is absent, `getItem` returns `null`, which
`JSON.parse` coerces to the string `"null"` and parses to the JSON value
`null`. When the stored string is not valid JSON, `JSON.parse` throws a
SyntaxError; there is no try/catch around either call site. -/
def jsonParseBlob : Blob → Except JSError Json
  | .absent => .ok .null
  | .corrupt => .error .parseError
  | .val j => .ok j

/-- Embeds the shared load expression
`JSON.parse(localStorage.getItem("triviaScores")) || []` (script.js
lines 186 and 227): the parsed value when truthy, otherwise `[]`. -/
def loadScores (b : Blob) : Except JSError Json :=
  match jsonParseBlob b with
  | .error e => .error e
  | .ok j => .ok (if j.truthy then j else .arr [])

/-- The score entry object built by `saveScore` (script.js line 189):
`{ username, score, date: new Date().toISOString() }`. -/
def scoreEntry (username : String) (score : Int) (date : String) : Json :=
  .obj [("username", .str username), ("score", .num score), ("date", .str date)]

/-- Embeds `saveScore(username, score)` (script.js lines 184-196): load the
existing scores, `push` the new entry (a TypeError if the loaded value is
truthy but not an array), and rewrite the whole blob via
`localStorage.setItem("triviaScores", JSON.stringify(scores))`. -/
def saveScore (username : String) (score : Int) (date : String) (b : Blob) :
    Except JSError Blob :=
  match loadScores b with
  | .error e => .error e
  | .ok (.arr l) => .ok (.val (.arr (l ++ [scoreEntry username score date])))
  | .ok _ => .error .typeError

/-- The field lookup behind JavaScript property access on an object. -/
def objGet (fields : List (String × Json)) (k : String) : Option Json :=
  (fields.find? (fun f => f.1 == k)).map (fun f => f.2)

/-- JavaScript property access `e.k` on a parsed JSON value: a TypeError on a
`null` base, a field lookup (or `undefined`, here `none`) on an object, and
`undefined` on the remaining values (booleans, numbers and strings are boxed,
arrays simply lack the property). -/
def jsGet : Json → String → Except JSError (Option Json)
  | .null, _ => .error .typeError
  | .obj fields, k => .ok (objGet fields k)
  | _, _ => .ok none

/-- The table row `displayScores` builds for one entry (script.js
lines 236-252): the `username` and `score` cells (`entry.username` /
`entry.score`); reading them from a `null` entry throws. -/
def mkRow (e : Json) : Except JSError (Option Json × Option Json) :=
  match jsGet e "username" with
  | .error err => .error err
  | .ok u =>
    match jsGet e "score" with
    | .error err => .error err
    | .ok sc => .ok (u, sc)

/-- The row a well-formed (object) score record renders to. -/
def recordRow : Json → Option Json × Option Json
  | .obj fields => (objGet fields "username", objGet fields "score")
  | _ => (none, none)

/-- A stored entry that is a Score Record in the spec's sense: a JSON
object. -/
def isRecord : Json → Bool
  | .obj _ => true
  | _ => false

/-- The `forEach` of `displayScores` (script.js lines 236-252): build one row
per entry in order; the first `null` entry throws and aborts the loop (the
rows appended to the table before the throw are not modelled). -/
def rowsOf : List Json → Except JSError (List (Option Json × Option Json))
  | [] => .ok []
  | e :: es =>
    match mkRow e with
    | .error err => .error err
    | .ok r =>
      match rowsOf es with
      | .error err => .error err
      | .ok rs => .ok (r :: rs)

/-- Embeds `displayScores` (script.js lines 225-253) as the list of table rows
it renders: load the scores and map each entry to a row via `forEach` (a
TypeError if the loaded value is truthy but not an array, or if an entry is
`null`). -/
def displayScoresRows (b : Blob) : Except JSError (List (Option Json × Option Json)) :=
  match loadScores b with
  | .error e => .error e
  | .ok (.arr l) => rowsOf l
  | .ok _ => .error .typeError

/-- One fetched trivia question, an entry of the API response's `results`
array (script.js lines 50-64): question text, one correct answer, and the
list of incorrect answers. -/
structure Question where
  question : String
  correct_answer : String
  incorrect_answers : List String

/-- One rendered radio-button answer option (script.js lines 83-90):
its `value` label, whether it carries the `data-correct="true"` attribute,
and whether it is currently checked (always unchecked when rendered). -/
structure AnswerOption where
  value : String
  dataCorrect : Bool
  checked : Bool
deriving DecidableEq

/-- One rendered question `div` inside `#question-container`: the question
text paragraph and the radio options of the group. -/
structure QuestionGroup where
  text : String
  options : List AnswerOption
deriving DecidableEq

/-- Insertion step of a comparison sort whose comparator threads a state `s`
(one state update per comparator call). Models one element insertion of
`Array.prototype.sort(comparator)` when the comparator is impure. -/
def insertS {σ α : Type} (cmp : σ → α → α → Bool × σ) (x : α) :
    List α → σ → List α × σ
  | [], s => ([x], s)
  | y :: ys, s =>
    match cmp s x y with
    | (true, s') => (x :: y :: ys, s')
    | (false, s') =>
      match insertS cmp x ys s' with
      | (zs, s'') => (y :: zs, s'')

/-- Comparison sort with a state-threading comparator. ECMAScript requires
`Array.prototype.sort` to return a list of the same elements for any
comparator, even an inconsistent one such as `() => Math.random() - 0.5`
(script.js lines 78-80); any comparison sort witnesses that, and this one
threads the comparator's state (the stream of `Math.random()` draws). -/
def sortByS {σ α : Type} (cmp : σ → α → α → Bool × σ) :
    List α → σ → List α × σ
  | [], s => ([], s)
  | x :: xs, s =>
    match sortByS cmp xs s with
    | (ys, s') => insertS cmp x ys s'

/-- The comparator `() => Math.random() - 0.5` (script.js line 79): it ignores
the two elements and consumes the next draw of the random stream `rng`; the
draw is `true` when `Math.random() - 0.5 < 0`. -/
def randCmp (rng : Nat → Bool) : Nat → String → String → Bool × Nat :=
  fun k _ _ => (rng k, k + 1)

/-- Embeds `createAnswerOptions(correctAnswer, incorrectAnswers, questionIndex)`
(script.js lines 73-93): build `[correctAnswer, ...incorrectAnswers]`, shuffle
it with `.sort(() => Math.random() - 0.5)`, and emit one radio option per
label, attaching `data-correct="true"` exactly to the labels equal
(`===`) to `correctAnswer`. Returns the options together with the advanced
random-stream position. -/
def createAnswerOptions (rng : Nat → Bool) (k : Nat)
    (correctAnswer : String) (incorrectAnswers : List String) :
    List AnswerOption × Nat :=
  match sortByS (randCmp rng) (correctAnswer :: incorrectAnswers) k with
  | (allAnswers, k') =>
    (allAnswers.map (fun a => ⟨a, a == correctAnswer, false⟩), k')

/-- Recursion of `displayQuestions` over the fetched questions (script.js
lines 52-63): one `div` per question, in input order, threading the random
stream position through the per-question shuffles. -/
def displayQuestionsGo (rng : Nat → Bool) : List Question → Nat → List QuestionGroup
  | [], _ => []
  | q :: qs, k =>
    match createAnswerOptions rng k q.correct_answer q.incorrect_answers with
    | (opts, k') => ⟨q.question, opts⟩ :: displayQuestionsGo rng qs k'

/-- Embeds `displayQuestions(questions)` (script.js lines 50-64) as the list
of question groups left in `#question-container` (the previous content is
cleared first). -/
def displayQuestions (questions : List Question) (rng : Nat → Bool) :
    List QuestionGroup :=
  displayQuestionsGo rng questions 0

/-- The `questionDiv.querySelector("input[type='radio']:checked")` lookup of
`calculateScore` (script.js line 216): the first checked radio input of the
group, or `null`. -/
def selectedOption (g : QuestionGroup) : Option AnswerOption :=
  g.options.find? (fun o => o.checked)

/-- Embeds `calculateScore()` (script.js lines 211-224): over the question
`div`s of `#question-container`, add 1 whenever the group's checked radio
exists and carries `data-correct === "true"`. -/
def calculateScore (groups : List QuestionGroup) : Nat :=
  groups.foldl
    (fun score g =>
      match selectedOption g with
      | some opt => if opt.dataCorrect then score + 1 else score
      | none => score)
    0

/-- The page state the script manipulates: the browser cookie jar, the
`#username` input's value, the localStorage blob, the rendered question
groups, the greeting paragraphs inserted before `#trivia-form` in
`#game-container`, the rendered `#score-table` rows, and the visibility /
enabled flags the handlers toggle. -/
structure PageState where
  jar : List Cookie
  nameField : List Char
  blob : Blob
  groups : List QuestionGroup
  greetings : List (List Char)
  scoreRows : List (Option Json × Option Json)
  loadingHidden : Bool
  questionHidden : Bool
  usernameInputHidden : Bool
  newPlayerHidden : Bool
  submitDisabled : Bool

/-- Observable side effects of one handler run: how many question fetches were
issued, how many errors were logged to the console, and which cookie writes
(name, value) were performed. -/
structure Trace where
  fetchRequests : Nat
  errorsLogged : Nat
  cookieWrites : List (List Char × List Char)
deriving DecidableEq

/-- Embeds `showLoading(isLoading)` (script.js lines 37-44): the loading
container is visible exactly while loading, the question container hidden
exactly while loading. -/
def showLoading (isLoading : Bool) (s : PageState) : PageState :=
  { s with loadingHidden := !isLoading, questionHidden := isLoading }

/-- Outcome of the `fetch` call and response decoding in `fetchQuestions`
(script.js lines 20-29): the fetch can reject, the `response.json()` step can
reject, or the decoded body's `results` list is obtained. -/
inductive FetchOutcome where
  | rejected
  | badJson
  | success (results : List Question)

/-- Embeds `fetchQuestions()` (script.js lines 17-30): show the loading
state, issue exactly one fetch; on success render the questions and hide the
loading state, on rejection (of the fetch or of `response.json()`) log the
error and hide the loading state, leaving the question container untouched.
No retry is issued in either branch. -/
def fetchQuestions (o : FetchOutcome) (rng : Nat → Bool) (s : PageState) :
    PageState × Trace :=
  let s := showLoading true s
  match o with
  | .success results =>
    (showLoading false { s with groups := displayQuestions results rng },
     ⟨1, 0, []⟩)
  | _ => (showLoading false s, ⟨1, 1, []⟩)

/-- The greeting paragraph `checkUsername` builds (script.js line 140):
`Welcome back, <username>!`. -/
def mkGreeting (u : List Char) : List Char :=
  ("Welcome back, ".data) ++ u ++ ['!']

/-- Embeds `checkUsername()` (script.js lines 130-147): when the `username`
cookie is truthy, hide the username input, show the New Player button, and
insert a fresh greeting paragraph before `#trivia-form` (after all previously
inserted greetings); otherwise show the input and hide the button. Nothing is
ever removed from the greeting list. -/
def checkUsername (s : PageState) : PageState :=
  let username := getCookie ("username".data) (cookieHeader s.jar)
  if truthyOpt username then
    { s with usernameInputHidden := true, newPlayerHidden := false,
             greetings := s.greetings ++ [mkGreeting (username.getD [])] }
  else
    { s with usernameInputHidden := false, newPlayerHidden := true }

/-- Embeds `newPlayer()` (script.js lines 197-206): clear the `username`
cookie with an already-expired write, clear the `#username` input, hide the
New Player button, and re-enable the submit button. -/
def newPlayer (s : PageState) : PageState :=
  { s with jar := clearUsernameCookie s.jar,
           nameField := [],
           newPlayerHidden := true,
           submitDisabled := false }

/-- Embeds the state effect of `displayScores()` (script.js lines 225-253):
replace the `#score-table` body rows with one row per stored entry; on an
uncaught storage error the rows are left unchanged and the error propagates. -/
def displayScoresState (s : PageState) : Except JSError PageState :=
  match displayScoresRows s.blob with
  | .error e => .error e
  | .ok rows => .ok { s with scoreRows := rows }

/-- Embeds `handleFormSubmit(event)` (script.js lines 103-129): read the
`username` cookie; when it is falsy (`null` or the empty string) derive a name
from the `#username` field (defaulting to `"Anonymous"`) and write the cookie
for 7 days; compute the score; save it with `saveScore` (an uncaught storage
error aborts the handler there); refresh the score table; re-run
`checkUsername`; and fetch a new question batch. `date` is the
`new Date().toISOString()` stamp of the submission, `o` and `rng` feed the
final fetch. Returns the new state, the trace, and the uncaught error if one
was thrown. -/
def handleFormSubmit (o : FetchOutcome) (rng : Nat → Bool) (date : String)
    (s : PageState) : PageState × Trace × Option JSError :=
  let found := getCookie ("username".data) (cookieHeader s.jar)
  let step :=
    if truthyOpt found then (found.getD [], s, ([] : List (List Char × List Char)))
    else
      let u := if s.nameField.isEmpty then "Anonymous".data else s.nameField
      (u, { s with jar := setCookie ("username".data) u 7 s.jar }, [(("username".data), u)])
  match step with
  | (username, s, writes) =>
    let score := calculateScore s.groups
    match saveScore (String.mk username) (score : Int) date s.blob with
    | .error e => (s, ⟨0, 0, writes⟩, some e)
    | .ok blob' =>
      match displayScoresState { s with blob := blob' } with
      | .error e => ({ s with blob := blob' }, ⟨0, 0, writes⟩, some e)
      | .ok s =>
        match fetchQuestions o rng (checkUsername s) with
        | (s, t) => (s, { t with cookieWrites := writes }, none)

/-- The per-piece test `getCookie` applies to each `;`-separated piece of the
cookie string: trim it, and on a `name=` prefix match return the remainder. -/
def matchPiece (nameEQ : List Char) (piece : List Char) : Option (List Char) :=
  if jsStartsWith nameEQ (jsTrim piece) then some ((jsTrim piece).drop nameEQ.length)
  else none

/-- No character of the string is whitespace. -/
def noWS (l : List Char) : Bool := l.all (fun c => !c.isWhitespace)

/-- No character of the string is a semicolon (a browser never stores a `;`
inside a cookie value: the set-cookie string is truncated there). -/
def noSemi (l : List Char) : Bool := l.all (fun c => c != ';')

/-- A syntactically valid cookie name as the browser enforces it: no
whitespace, no `;`, no `=`. -/
def goodName (n : List Char) : Bool :=
  n.all (fun c => !c.isWhitespace && c != ';' && c != '=')

/-- A reachable browser cookie jar: every cookie has a valid name and a
semicolon-free value. -/
abbrev goodJar (jar : List Cookie) : Prop :=
  ∀ c ∈ jar, goodName c.name = true ∧ noSemi c.value = true

/-- Sample rendered group whose checked radio carries the correctness flag. -/
def gHit : QuestionGroup :=
  ⟨"q1", [⟨"A", true, true⟩, ⟨"B", false, false⟩]⟩

/-- Sample rendered group whose checked radio is an incorrect option. -/
def gMiss : QuestionGroup :=
  ⟨"q2", [⟨"A", true, false⟩, ⟨"B", false, true⟩]⟩

/-- Sample rendered group with no radio checked. -/
def gBlank : QuestionGroup :=
  ⟨"q3", [⟨"A", true, false⟩, ⟨"B", false, false⟩]⟩

/-- The identity a submission is recorded under: the existing cookie value
when it is truthy, otherwise the name field's content or "Anonymous". -/
def submitUser (s : PageState) : List Char :=
  if truthyOpt (getCookie ("username".data) (cookieHeader s.jar)) then
    (getCookie ("username".data) (cookieHeader s.jar)).getD []
  else if s.nameField.isEmpty then "Anonymous".data else s.nameField

/-- Sample fresh page state: no cookie, name field "Ada", no stored blob. -/
def sAda : PageState :=
  { jar := [], nameField := "Ada".data, blob := Blob.absent, groups := [],
    greetings := [], scoreRows := [], loadingHidden := true,
    questionHidden := false, usernameInputHidden := false,
    newPlayerHidden := true, submitDisabled := false }

/-- Sample page state with an existing "Bob" cookie and an empty stored
leaderboard array. -/
def sBob : PageState :=
  { sAda with jar := [⟨"username".data, "Bob".data⟩], nameField := [],
              blob := Blob.val (Json.arr []) }

/-- Sample page state whose `username` cookie is present with the empty
string as value. -/
def sEmptyCk : PageState :=
  { sAda with jar := [⟨"username".data, []⟩], nameField := "Eve".data,
              blob := Blob.val (Json.arr []) }

/-- Inserting with a state-threading comparator permutes: the output list is
the input with `x` inserted somewhere. -/
theorem insertS_perm {σ α : Type} (cmp : σ → α → α → Bool × σ) (x : α)
    (l : List α) (s : σ) : (insertS cmp x l s).1.Perm (x :: l) := by
  induction l generalizing s with
  | nil => simp [insertS]
  | cons y ys ih =>
    rcases h : cmp s x y with ⟨b, s'⟩
    cases b
    · rcases h2 : insertS cmp x ys s' with ⟨zs, s''⟩
      have hd : (insertS cmp x (y :: ys) s).1 = y :: zs := by
        simp [insertS, h, h2]
      have hp : zs.Perm (x :: ys) := by
        have := ih s'
        rw [h2] at this
        exact this
      rw [hd]
      exact (hp.cons y).trans (List.Perm.swap x y ys)
    · have hd : (insertS cmp x (y :: ys) s).1 = x :: y :: ys := by
        simp [insertS, h]
      rw [hd]

/-- A comparison sort with a state-threading comparator returns a permutation
of its input, whatever the comparator answers. -/
theorem sortByS_perm {σ α : Type} (cmp : σ → α → α → Bool × σ)
    (l : List α) (s : σ) : (sortByS cmp l s).1.Perm l := by
  induction l generalizing s with
  | nil => simp [sortByS]
  | cons x xs ih =>
    rcases h : sortByS cmp xs s with ⟨ys, s'⟩
    have hys : ys.Perm xs := by
      have := ih s
      rw [h] at this
      exact this
    have hd : sortByS cmp (x :: xs) s = insertS cmp x ys s' := by
      simp [sortByS, h]
    rw [hd]
    exact (insertS_perm cmp x ys s').trans (hys.cons x)

/-- The `foldl` of `calculateScore` counts the groups whose selected option
carries the correctness flag, on top of the accumulator. -/
theorem calculateScore_go (n : Nat) (groups : List QuestionGroup) :
    List.foldl
      (fun score g =>
        match selectedOption g with
        | some opt => if opt.dataCorrect then score + 1 else score
        | none => score)
      n groups
      = n + groups.countP (fun g => (selectedOption g).any (fun o => o.dataCorrect)) := by
  induction groups generalizing n with
  | nil => simp
  | cons g gs ih =>
    rw [List.foldl_cons, List.countP_cons, ih]
    cases h : selectedOption g with
    | none => simp [h]
    | some o =>
      cases ho : o.dataCorrect
      · simp [h, ho]
      · simp [h, ho]
        ring

/-- `calculateScore` equals the count of groups whose selected option is
flagged correct. -/
theorem calculateScore_eq_countP (groups : List QuestionGroup) :
    calculateScore groups
      = groups.countP (fun g => (selectedOption g).any (fun o => o.dataCorrect)) := by
  have := calculateScore_go 0 groups
  simpa [calculateScore] using this

/-- C1: `calculateScore` returns the number of question groups whose
currently selected option carries the correctness flag; in particular it
returns the group count when every group's selection is flagged correct, 0
when no group's selection is flagged correct (only incorrect options
selected), and 0 when no group has a selection. -/
theorem C1_calculateScore_counts (groups : List QuestionGroup) :
    calculateScore groups
      = groups.countP (fun g => (selectedOption g).any (fun o => o.dataCorrect))
    ∧ ((∀ g ∈ groups, (selectedOption g).any (fun o => o.dataCorrect) = true) →
        calculateScore groups = groups.length)
    ∧ ((∀ g ∈ groups, (selectedOption g).any (fun o => o.dataCorrect) = false) →
        calculateScore groups = 0)
    ∧ ((∀ g ∈ groups, selectedOption g = none) → calculateScore groups = 0) := by
  refine ⟨calculateScore_eq_countP groups, ?_, ?_, ?_⟩
  · intro h
    rw [calculateScore_eq_countP]
    exact List.countP_eq_length.2 h
  · intro h
    rw [calculateScore_eq_countP]
    refine List.countP_eq_zero.2 ?_
    intro g hg
    simp [h g hg]
  · intro h
    rw [calculateScore_eq_countP]
    refine List.countP_eq_zero.2 ?_
    intro g hg
    simp [h g hg]

/-- Witness for C1 on concrete renders: two correct selections score 2, two
incorrect selections score 0, a blank render scores 0. -/
theorem C1_calculateScore_counts_witness :
    calculateScore [gHit, gHit] = 2
    ∧ calculateScore [gMiss, gMiss] = 0
    ∧ calculateScore [gBlank] = 0 := by
  refine ⟨?_, ?_, ?_⟩
  · exact (C1_calculateScore_counts [gHit, gHit]).2.1 (by decide)
  · exact (C1_calculateScore_counts [gMiss, gMiss]).2.2.1 (by decide)
  · exact (C1_calculateScore_counts [gBlank]).2.2.2 (by decide)

/-- C8: whatever the comparator's random draws, the labels of the rendered
options are a permutation (equal multiset) of the correct answer together
with the incorrect answers. -/
theorem C8_shuffle_is_permutation (rng : Nat → Bool) (k : Nat)
    (correctAnswer : String) (incorrectAnswers : List String) :
    ((createAnswerOptions rng k correctAnswer incorrectAnswers).1.map
        (fun o => o.value)).Perm (correctAnswer :: incorrectAnswers) := by
  rcases h : sortByS (randCmp rng) (correctAnswer :: incorrectAnswers) k with ⟨all, k'⟩
  have hall : all.Perm (correctAnswer :: incorrectAnswers) := by
    have := sortByS_perm (randCmp rng) (correctAnswer :: incorrectAnswers) k
    rw [h] at this
    exact this
  have hd : (createAnswerOptions rng k correctAnswer incorrectAnswers).1
      = all.map (fun a => ⟨a, a == correctAnswer, false⟩) := by
    simp [createAnswerOptions, h]
  rw [hd, List.map_map]
  have hcomp : ((fun o : AnswerOption => o.value) ∘
      fun a => AnswerOption.mk a (a == correctAnswer) false) = fun a => a := rfl
  rw [hcomp]
  simpa using hall

/-- When the correct answer does not occur among the incorrect answers,
exactly one rendered option carries `data-correct="true"`. -/
theorem createAnswerOptions_countP (rng : Nat → Bool) (k : Nat)
    (correct : String) (incorrect : List String) (h : correct ∉ incorrect) :
    (createAnswerOptions rng k correct incorrect).1.countP
      (fun o => o.dataCorrect) = 1 := by
  rcases hs : sortByS (randCmp rng) (correct :: incorrect) k with ⟨all, k'⟩
  have hall : all.Perm (correct :: incorrect) := by
    have := sortByS_perm (randCmp rng) (correct :: incorrect) k
    rw [hs] at this
    exact this
  have hd : (createAnswerOptions rng k correct incorrect).1
      = all.map (fun a => ⟨a, a == correct, false⟩) := by
    simp [createAnswerOptions, hs]
  rw [hd, List.countP_map]
  have hcomp : ((fun o : AnswerOption => o.dataCorrect) ∘
      fun a => AnswerOption.mk a (a == correct) false) = fun a => a == correct := rfl
  rw [hcomp]
  have hcount : List.countP (fun a => a == correct) all = all.count correct := rfl
  rw [hcount, hall.count_eq, List.count_cons_self, List.count_eq_zero.2 h]

/-- Group count and per-group flag count of a full render, threading the
random stream from any position. -/
theorem displayQuestionsGo_spec (rng : Nat → Bool) (qs : List Question) (k : Nat) :
    (displayQuestionsGo rng qs k).length = qs.length
    ∧ ((∀ q ∈ qs, q.correct_answer ∉ q.incorrect_answers) →
        ∀ g ∈ displayQuestionsGo rng qs k,
          g.options.countP (fun o => o.dataCorrect) = 1) := by
  induction qs generalizing k with
  | nil => simp [displayQuestionsGo]
  | cons q qs ih =>
    rcases hc : createAnswerOptions rng k q.correct_answer q.incorrect_answers with ⟨opts, k'⟩
    have hd : displayQuestionsGo rng (q :: qs) k
        = ⟨q.question, opts⟩ :: displayQuestionsGo rng qs k' := by
      simp [displayQuestionsGo, hc]
    rw [hd]
    refine ⟨by simp [(ih k').1], ?_⟩
    intro h g hg
    rcases List.mem_cons.1 hg with rfl | hg'
    · have := createAnswerOptions_countP rng k q.correct_answer q.incorrect_answers
        (h q (List.mem_cons_self q qs))
      rw [hc] at this
      simpa using this
    · exact (ih k').2 (fun q' hq' => h q' (List.mem_cons_of_mem _ hq')) g hg'

/-- C2 counterexample: when a question's incorrect-answer list contains its
correct answer (here question "q" with correct answer "A" and incorrect
answers ["A"]), the rendered group carries the `data-correct="true"` flag on
two options, not exactly one. -/
theorem C2_counterexample :
    (displayQuestions [⟨"q", "A", ["A"]⟩] (fun _ => false)).map
      (fun g => g.options.countP (fun o => o.dataCorrect)) = [2] := by decide

/-- C2 (amended): rendering a batch of N questions produces exactly N option
groups, and when no question's incorrect-answer list contains its correct
answer, each group has exactly one option flagged `data-correct="true"`. -/
theorem C2_render_groups_flags (qs : List Question) (rng : Nat → Bool) :
    (displayQuestions qs rng).length = qs.length
    ∧ ((∀ q ∈ qs, q.correct_answer ∉ q.incorrect_answers) →
        ∀ g ∈ displayQuestions qs rng,
          g.options.countP (fun o => o.dataCorrect) = 1) :=
  displayQuestionsGo_spec rng qs 0

/-- Witness for C2 on a concrete batch with distinct answers. -/
theorem C2_render_groups_flags_witness :
    (displayQuestions [⟨"q", "A", ["B", "C"]⟩] (fun _ => false)).length = 1
    ∧ ∀ g ∈ displayQuestions [⟨"q", "A", ["B", "C"]⟩] (fun _ => false),
        g.options.countP (fun o => o.dataCorrect) = 1 :=
  ⟨(C2_render_groups_flags [⟨"q", "A", ["B", "C"]⟩] (fun _ => false)).1,
   (C2_render_groups_flags [⟨"q", "A", ["B", "C"]⟩] (fun _ => false)).2 (by decide)⟩

/-- C3 counterexample: on a blob that is not valid JSON, `displayScores` does
not return an empty leaderboard — the `JSON.parse` call throws an uncaught
SyntaxError (there is no try/catch at either call site). -/
theorem C3_counterexample :
    displayScoresRows Blob.corrupt = .error JSError.parseError := rfl

/-- C3 (amended): when the blob is absent, loading yields the empty sequence
and no error (`JSON.parse(null)` parses to the falsy `null`, defaulted to
`[]`); when the blob is not valid JSON, both `saveScore` and `displayScores`
raise the parse error instead of degrading to an empty leaderboard. -/
theorem C3_absent_empty_corrupt_raises (u : String) (sc : Int) (d : String) :
    displayScoresRows Blob.absent = .ok []
    ∧ loadScores Blob.absent = .ok (Json.arr [])
    ∧ saveScore u sc d Blob.corrupt = .error JSError.parseError
    ∧ displayScoresRows Blob.corrupt = .error JSError.parseError :=
  ⟨rfl, rfl, rfl, rfl⟩

/-- Rendering rows over entries that are all objects succeeds and yields one
row per record, in order. -/
theorem rowsOf_records (l : List Json) (h : ∀ e ∈ l, isRecord e = true) :
    rowsOf l = .ok (l.map recordRow) := by
  induction l with
  | nil => rfl
  | cons e es ih =>
    have he := h e (List.mem_cons_self e es)
    have ihh := ih (fun x hx => h x (List.mem_cons_of_mem _ hx))
    cases e with
    | obj fields => simp [rowsOf, ihh, mkRow, jsGet, recordRow]
    | null => simp [isRecord] at he
    | bool b => simp [isRecord] at he
    | num n => simp [isRecord] at he
    | str s => simp [isRecord] at he
    | arr es2 => simp [isRecord] at he

/-- C5: appending a score to a stored sequence of score records rewrites the
blob to the prior sequence with the new entry last, and a subsequent load
renders exactly those records in order — nothing is replaced, mutated or
deleted. The hypothesis states that the prior entries are score records
(JSON objects), as the claim's "sequence of score records" requires. -/
theorem C5_leaderboard_roundtrip (l : List Json) (u : String) (sc : Int) (d : String)
    (hrec : ∀ e ∈ l, isRecord e = true) :
    saveScore u sc d (Blob.val (Json.arr l))
      = .ok (Blob.val (Json.arr (l ++ [scoreEntry u sc d])))
    ∧ displayScoresRows (Blob.val (Json.arr (l ++ [scoreEntry u sc d])))
      = .ok ((l ++ [scoreEntry u sc d]).map recordRow) := by
  constructor
  · simp [saveScore, loadScores, jsonParseBlob, Json.truthy]
  · have hall : ∀ e ∈ l ++ [scoreEntry u sc d], isRecord e = true := by
      intro e he
      rcases List.mem_append.1 he with h1 | h2
      · exact hrec e h1
      · rcases List.mem_cons.1 h2 with rfl | h3
        · rfl
        · simp at h3
    rw [show displayScoresRows (Blob.val (Json.arr (l ++ [scoreEntry u sc d])))
        = rowsOf (l ++ [scoreEntry u sc d]) from by
          simp [displayScoresRows, loadScores, jsonParseBlob, Json.truthy]]
    exact rowsOf_records _ hall

/-- Witness for C5 on a stored array holding one concrete record. -/
theorem C5_leaderboard_roundtrip_witness :
    saveScore "Ada" 7 "2026-01-01"
        (Blob.val (Json.arr [scoreEntry "Ann" 5 "2025-12-31"]))
      = .ok (Blob.val (Json.arr [scoreEntry "Ann" 5 "2025-12-31",
          scoreEntry "Ada" 7 "2026-01-01"]))
    ∧ displayScoresRows (Blob.val (Json.arr [scoreEntry "Ann" 5 "2025-12-31",
          scoreEntry "Ada" 7 "2026-01-01"]))
      = .ok [recordRow (scoreEntry "Ann" 5 "2025-12-31"),
             recordRow (scoreEntry "Ada" 7 "2026-01-01")] := by
  have h := C5_leaderboard_roundtrip [scoreEntry "Ann" 5 "2025-12-31"]
    "Ada" 7 "2026-01-01" (by decide)
  exact ⟨h.1, h.2⟩

/-- C7: when the fetch rejects or its body is not parseable JSON, exactly one
error is logged, the loading indicator ends hidden, the rendered quiz groups
are untouched (no quiz displayed), and exactly one fetch was issued — no
automatic retry. -/
theorem C7_network_failure (s : PageState) (rng : Nat → Bool) :
    ((fetchQuestions .rejected rng s).2.errorsLogged = 1
      ∧ (fetchQuestions .rejected rng s).2.fetchRequests = 1
      ∧ (fetchQuestions .rejected rng s).1.loadingHidden = true
      ∧ (fetchQuestions .rejected rng s).1.groups = s.groups)
    ∧ ((fetchQuestions .badJson rng s).2.errorsLogged = 1
      ∧ (fetchQuestions .badJson rng s).2.fetchRequests = 1
      ∧ (fetchQuestions .badJson rng s).1.loadingHidden = true
      ∧ (fetchQuestions .badJson rng s).1.groups = s.groups) := by
  simp [fetchQuestions, showLoading]

/-- `getCookie` is the first hit of `matchPiece` over the split cookie
string. -/
theorem getCookie_eq (name cookieStr : List Char) :
    getCookie name cookieStr
      = (jsSplit ';' cookieStr).findSome? (matchPiece (name ++ ['='])) := rfl

/-- Trimming absorbs a leading space. -/
theorem jsTrim_cons_space (l : List Char) : jsTrim (' ' :: l) = jsTrim l := by
  have h : (' ').isWhitespace = true := by decide
  simp [jsTrim, List.dropWhile_cons, h]

/-- Dropping leading whitespace does nothing to a whitespace-free string. -/
theorem dropWhile_noWS (l : List Char) (h : noWS l = true) :
    l.dropWhile Char.isWhitespace = l := by
  cases l with
  | nil => rfl
  | cons a m =>
    have ha : a.isWhitespace = false := by
      have := List.all_eq_true.1 h a (by simp)
      simpa using this
    simp [List.dropWhile_cons, ha]

/-- A whitespace-free string reversed is whitespace-free. -/
theorem noWS_reverse (l : List Char) (h : noWS l = true) : noWS l.reverse = true := by
  rw [noWS, List.all_eq_true] at h ⊢
  intro c hc
  exact h c (List.mem_reverse.1 hc)

/-- Dropping leading whitespace stops at the first non-whitespace character,
here an explicit `c` after a prefix `a`. -/
theorem dropWhile_ws_append (a : List Char) (c : Char) (b : List Char)
    (hc : c.isWhitespace = false) :
    (a ++ c :: b).dropWhile Char.isWhitespace
      = a.dropWhile Char.isWhitespace ++ c :: b := by
  induction a with
  | nil => simp [List.dropWhile_cons, hc]
  | cons x xs ih =>
    by_cases hx : x.isWhitespace
    · simp [List.dropWhile_cons, hx, ih]
    · simp [List.dropWhile_cons, hx]

/-- Trimming a piece `n=v` with a whitespace-free name keeps the name and the
`=` and only right-trims the value. -/
theorem jsTrim_name_eq (n v : List Char) (hn : noWS n = true) :
    jsTrim (n ++ '=' :: v)
      = n ++ '=' :: (v.reverse.dropWhile Char.isWhitespace).reverse := by
  unfold jsTrim
  have hleft : (n ++ '=' :: v).dropWhile Char.isWhitespace = n ++ '=' :: v := by
    cases n with
    | nil => simp [List.dropWhile_cons]
    | cons a m =>
      have ha : a.isWhitespace = false := by
        have := List.all_eq_true.1 hn a (by simp)
        simpa using this
      simp [List.dropWhile_cons, ha]
  rw [hleft]
  rw [show (n ++ '=' :: v).reverse = v.reverse ++ '=' :: n.reverse by simp]
  rw [dropWhile_ws_append _ '=' _ (by decide)]
  simp

/-- A list starts with itself followed by anything. -/
theorem jsStartsWith_append_self (a b : List Char) :
    jsStartsWith a (a ++ b) = true := by
  induction a with
  | nil => rfl
  | cons x xs ih => simp [jsStartsWith, ih]

/-- Two distinct `=`-free names cannot satisfy each other's `name=` prefix
test: `q=w` never starts with `p=` when `p ≠ q`. -/
theorem names_no_match (p q w : List Char) (hp : '=' ∉ p) (hq : '=' ∉ q)
    (hne : p ≠ q) : jsStartsWith (p ++ ['=']) (q ++ '=' :: w) = false := by
  induction p generalizing q with
  | nil =>
    cases q with
    | nil => exact absurd rfl hne
    | cons b q' =>
      have hb : ('=' == b) = false := by
        have hbn : b ≠ '=' := fun h => hq (by simp [h])
        exact beq_eq_false_iff_ne.2 (Ne.symm hbn)
      simp [jsStartsWith, hb]
  | cons a p' ih =>
    cases q with
    | nil =>
      have ha : (a == '=') = false :=
        beq_eq_false_iff_ne.2 (fun h => hp (by simp [h]))
      simp [jsStartsWith, ha]
    | cons b q' =>
      by_cases hab : a = b
      · subst hab
        have hne' : p' ≠ q' := fun h => hne (by rw [h])
        have hp' : '=' ∉ p' := fun h => hp (List.mem_cons_of_mem _ h)
        have hq' : '=' ∉ q' := fun h => hq (List.mem_cons_of_mem _ h)
        simp [jsStartsWith, ih q' hp' hq' hne']
      · have : (a == b) = false := beq_eq_false_iff_ne.2 hab
        simp [jsStartsWith, this]

/-- A piece holding a cookie of a different (valid) name never matches the
`username=` prefix test. -/
theorem matchPiece_other (n v : List Char) (hn : goodName n = true)
    (hne : n ≠ "username".data) :
    matchPiece ("username".data ++ ['=']) (n ++ '=' :: v) = none := by
  have hnws : noWS n = true := by
    rw [noWS, List.all_eq_true]
    intro c hc
    have := List.all_eq_true.1 hn c hc
    simp only [Bool.and_eq_true] at this
    simpa using this.1.1
  have hneq : '=' ∉ n := by
    intro hmem
    have := List.all_eq_true.1 hn '=' hmem
    simp at this
  unfold matchPiece
  rw [jsTrim_name_eq n v hnws]
  rw [names_no_match ("username".data) n _ (by decide) hneq (Ne.symm hne)]
  rfl

/-- The piece holding the `username` cookie with a whitespace-free value `v`
matches the prefix test and yields exactly `v`. -/
theorem matchPiece_own (v : List Char) (hv : noWS v = true) :
    matchPiece ("username".data ++ ['=']) ("username".data ++ '=' :: v)
      = some v := by
  unfold matchPiece
  rw [jsTrim_name_eq _ v (by decide)]
  rw [dropWhile_noWS v.reverse (noWS_reverse v hv), List.reverse_reverse]
  have h1 : jsStartsWith ("username".data ++ ['='])
      ("username".data ++ '=' :: v) = true := by
    have h := jsStartsWith_append_self ("username".data ++ ['=']) v
    rw [show ("username".data ++ ['=']) ++ v = "username".data ++ '=' :: v by simp] at h
    exact h
  have h2 : ("username".data ++ '=' :: v).drop
      ("username".data ++ ['=']).length = v := by
    rw [show "username".data ++ '=' :: v = ("username".data ++ ['=']) ++ v by simp]
    rw [List.drop_left]
  rw [h1, h2]
  simp

/-- `matchPiece` ignores a leading space (the code trims each piece). -/
theorem matchPiece_space (nameEQ s : List Char) :
    matchPiece nameEQ (' ' :: s) = matchPiece nameEQ s := by
  unfold matchPiece
  rw [jsTrim_cons_space]

/-- The split never produces the empty list of pieces. -/
theorem jsSplit_ne_nil (sep : Char) (l : List Char) : jsSplit sep l ≠ [] := by
  cases l with
  | nil => simp [jsSplit]
  | cons x xs =>
    rcases h : jsSplit sep xs with _ | ⟨s, rest⟩
    · simp [jsSplit, h]
    · simp [jsSplit, h]
      split <;> simp

/-- Splitting a separator-free string yields that one piece. -/
theorem jsSplit_no_sep (sep : Char) (a : List Char) (h : ∀ c ∈ a, c ≠ sep) :
    jsSplit sep a = [a] := by
  induction a with
  | nil => rfl
  | cons x xs ih =>
    have hx : x ≠ sep := h x (by simp)
    have ihh := ih (fun c hc => h c (List.mem_cons_of_mem _ hc))
    simp [jsSplit, ihh, hx]

/-- Splitting peels off a separator-free prefix before a separator. -/
theorem jsSplit_append_sep (sep : Char) (a b : List Char)
    (h : ∀ c ∈ a, c ≠ sep) :
    jsSplit sep (a ++ sep :: b) = a :: jsSplit sep b := by
  induction a with
  | nil =>
    rcases hb : jsSplit sep b with _ | ⟨s, rest⟩
    · exact absurd hb (jsSplit_ne_nil sep b)
    · simp [jsSplit, hb]
  | cons x xs ih =>
    have hx : x ≠ sep := h x (by simp)
    have ihh := ih (fun c hc => h c (List.mem_cons_of_mem _ hc))
    simp [jsSplit, ihh, hx]

/-- Scanning the pieces of a string with an extra leading space finds the
same cookie. -/
theorem findSome_matchPiece_space (nameEQ l : List Char) :
    (jsSplit ';' (' ' :: l)).findSome? (matchPiece nameEQ)
      = (jsSplit ';' l).findSome? (matchPiece nameEQ) := by
  rcases h : jsSplit ';' l with _ | ⟨s, rest⟩
  · exact absurd h (jsSplit_ne_nil ';' l)
  · have hsp : jsSplit ';' (' ' :: l) = (' ' :: s) :: rest := by
      simp [jsSplit, h]
    rw [hsp, List.findSome?_cons, List.findSome?_cons, matchPiece_space nameEQ s]

/-- A `name=value` piece of a valid cookie contains no semicolon. -/
theorem piece_no_semi (n v : List Char) (hn : goodName n = true)
    (hv : noSemi v = true) : ∀ ch ∈ n ++ '=' :: v, ch ≠ ';' := by
  intro ch hch
  rcases List.mem_append.1 hch with h1 | h2
  · have := List.all_eq_true.1 hn ch h1
    simp only [Bool.and_eq_true] at this
    exact bne_iff_ne.1 this.1.2
  · rcases List.mem_cons.1 h2 with rfl | h3
    · decide
    · exact bne_iff_ne.1 (List.all_eq_true.1 hv ch h3)

/-- The header of two or more cookies. -/
theorem cookieHeader_cons (c : Cookie) (d : Cookie) (ds : List Cookie) :
    cookieHeader (c :: d :: ds)
      = c.name ++ '=' :: c.value ++ ';' :: ' ' :: cookieHeader (d :: ds) := rfl

/-- `getCookie "username"` over the header of a valid jar holding no
`username` cookie returns `null`. -/
theorem getCookie_header_none (jar : List Cookie) (hwf : goodJar jar)
    (hn : ∀ c ∈ jar, c.name ≠ "username".data) :
    getCookie ("username".data) (cookieHeader jar) = none := by
  induction jar with
  | nil => decide
  | cons c rest ih =>
    have hcwf := hwf c (by simp)
    have hcn := hn c (by simp)
    have ihh := ih (fun x hx => hwf x (List.mem_cons_of_mem _ hx))
      (fun x hx => hn x (List.mem_cons_of_mem _ hx))
    cases rest with
    | nil =>
      rw [getCookie_eq, show cookieHeader [c] = c.name ++ '=' :: c.value from rfl]
      rw [jsSplit_no_sep ';' _ (piece_no_semi c.name c.value hcwf.1 hcwf.2)]
      rw [List.findSome?_cons, matchPiece_other c.name c.value hcwf.1 hcn]
      rfl
    | cons d ds =>
      rw [getCookie_eq, cookieHeader_cons c d ds]
      rw [show c.name ++ '=' :: c.value ++ ';' :: ' ' :: cookieHeader (d :: ds)
          = (c.name ++ '=' :: c.value) ++ ';' :: ' ' :: cookieHeader (d :: ds) by simp]
      rw [jsSplit_append_sep ';' _ _ (piece_no_semi c.name c.value hcwf.1 hcwf.2)]
      rw [List.findSome?_cons, matchPiece_other c.name c.value hcwf.1 hcn]
      rw [findSome_matchPiece_space]
      rw [← getCookie_eq]
      exact ihh

/-- `getCookie "username"` over the header of a valid jar whose last cookie
is `username=v` (and no other `username` entry) returns `v`. -/
theorem getCookie_header_found (jar : List Cookie) (v : List Char)
    (hwf : goodJar jar) (hn : ∀ c ∈ jar, c.name ≠ "username".data)
    (hv1 : noSemi v = true) (hv2 : noWS v = true) :
    getCookie ("username".data)
      (cookieHeader (jar ++ [⟨"username".data, v⟩])) = some v := by
  induction jar with
  | nil =>
    rw [getCookie_eq, List.nil_append,
      show cookieHeader [⟨"username".data, v⟩] = "username".data ++ '=' :: v from rfl]
    rw [jsSplit_no_sep ';' _ (piece_no_semi _ v (by decide) hv1)]
    rw [List.findSome?_cons, matchPiece_own v hv2]
  | cons c rest ih =>
    have hcwf := hwf c (by simp)
    have hcn := hn c (by simp)
    have ihh := ih (fun x hx => hwf x (List.mem_cons_of_mem _ hx))
      (fun x hx => hn x (List.mem_cons_of_mem _ hx))
    rw [getCookie_eq]
    rw [show (c :: rest) ++ [⟨"username".data, v⟩]
        = c :: (rest ++ [⟨"username".data, v⟩]) from rfl]
    rcases hre : rest ++ [⟨"username".data, v⟩] with _ | ⟨d, ds⟩
    · exact absurd hre (by simp)
    · rw [hre, cookieHeader_cons c d ds]
      rw [show c.name ++ '=' :: c.value ++ ';' :: ' ' :: cookieHeader (d :: ds)
          = (c.name ++ '=' :: c.value) ++ ';' :: ' ' :: cookieHeader (d :: ds) by simp]
      rw [jsSplit_append_sep ';' _ _ (piece_no_semi c.name c.value hcwf.1 hcwf.2)]
      rw [List.findSome?_cons, matchPiece_other c.name c.value hcwf.1 hcn]
      rw [findSome_matchPiece_space, ← hre, ← getCookie_eq]
      exact ihh

/-- Filtering out the `username` cookies keeps membership and validity. -/
theorem mem_filter_name {jar : List Cookie} {c : Cookie}
    (h : c ∈ jar.filter (fun c => c.name ≠ "username".data)) :
    c ∈ jar ∧ c.name ≠ "username".data := by
  have h' := List.mem_filter.1 h
  exact ⟨h'.1, by simpa using h'.2⟩

/-- C4: with a valid jar, writing the `username` cookie to `"Ada"` for 7 days
makes `getCookie("username")` return `"Ada"`, and clearing it through the
`newPlayer` expired write makes `getCookie("username")` return `null`. The
validity hypothesis states the browser-enforced jar invariants (names without
whitespace, `;` or `=`; values without `;`). -/
theorem C4_cookie_roundtrip (jar : List Cookie) (hwf : goodJar jar) :
    getCookie ("username".data)
      (cookieHeader (setCookie ("username".data) ("Ada".data) 7 jar))
      = some ("Ada".data)
    ∧ getCookie ("username".data)
      (cookieHeader (clearUsernameCookie
        (setCookie ("username".data) ("Ada".data) 7 jar))) = none := by
  have hwf' : goodJar (jar.filter (fun c => c.name ≠ "username".data)) :=
    fun c hc => hwf c (mem_filter_name hc).1
  have hn' : ∀ c ∈ jar.filter (fun c => c.name ≠ "username".data),
      c.name ≠ "username".data := fun c hc => (mem_filter_name hc).2
  constructor
  · exact getCookie_header_found _ _ hwf' hn' (by decide) (by decide)
  · unfold clearUsernameCookie setCookie
    rw [List.filter_append]
    have hone : List.filter (fun c => decide (c.name ≠ "username".data))
        [(⟨"username".data, "Ada".data⟩ : Cookie)] = [] := by decide
    rw [hone, List.append_nil]
    refine getCookie_header_none _ ?_ ?_
    · intro c hc
      exact hwf c (mem_filter_name (List.mem_of_mem_filter hc)).1
    · intro c hc
      exact (mem_filter_name (List.mem_of_mem_filter hc)).2

/-- Witness for C4 on a concrete jar holding one other cookie. -/
theorem C4_cookie_roundtrip_witness :
    getCookie ("username".data)
      (cookieHeader (setCookie ("username".data) ("Ada".data) 7
        [⟨"theme".data, "dark".data⟩])) = some ("Ada".data)
    ∧ getCookie ("username".data)
      (cookieHeader (clearUsernameCookie
        (setCookie ("username".data) ("Ada".data) 7
          [⟨"theme".data, "dark".data⟩]))) = none :=
  C4_cookie_roundtrip [⟨"theme".data, "dark".data⟩] (by decide)

/-- `fetchQuestions` only touches the loading flags and the question groups. -/
theorem fetchQuestions_frame (o : FetchOutcome) (rng : Nat → Bool) (s : PageState) :
    (fetchQuestions o rng s).1.jar = s.jar
    ∧ (fetchQuestions o rng s).1.blob = s.blob
    ∧ (fetchQuestions o rng s).1.greetings = s.greetings := by
  cases o <;> simp [fetchQuestions, showLoading]

/-- `checkUsername` only touches visibility flags and the greetings. -/
theorem checkUsername_frame (s : PageState) :
    (checkUsername s).jar = s.jar
    ∧ (checkUsername s).blob = s.blob
    ∧ (checkUsername s).groups = s.groups := by
  unfold checkUsername
  cases htr : truthyOpt (getCookie ("username".data) (cookieHeader s.jar)) <;>
    simp [htr]

/-- `checkUsername` never removes a greeting: the old list is a prefix. -/
theorem checkUsername_greetings (s : PageState) :
    ∃ t, (checkUsername s).greetings = s.greetings ++ t := by
  unfold checkUsername
  cases htr : truthyOpt (getCookie ("username".data) (cookieHeader s.jar))
  · refine ⟨[], ?_⟩
    simp [htr]
  · refine ⟨[mkGreeting ((getCookie ("username".data) (cookieHeader s.jar)).getD [])], ?_⟩
    simp [htr]

/-- A successful `displayScores` only replaces the score-table rows. -/
theorem displayScoresState_frame (s s' : PageState)
    (h : displayScoresState s = .ok s') :
    s'.jar = s.jar ∧ s'.blob = s.blob ∧ s'.greetings = s.greetings
    ∧ s'.groups = s.groups := by
  unfold displayScoresState at h
  rcases hr : displayScoresRows s.blob with e | rows
  · rw [hr] at h
    simp at h
  · rw [hr] at h
    injection h with h'
    subst h'
    simp

/-- The cookie writes a submission performs: none when a truthy `username`
cookie exists, exactly one (derived from the name field) otherwise. -/
theorem handleFormSubmit_writes (o : FetchOutcome) (rng : Nat → Bool)
    (date : String) (s : PageState) :
    (handleFormSubmit o rng date s).2.1.cookieWrites
      = if truthyOpt (getCookie ("username".data) (cookieHeader s.jar)) then []
        else [(("username".data),
               if s.nameField.isEmpty then "Anonymous".data else s.nameField)] := by
  unfold handleFormSubmit
  cases htr : truthyOpt (getCookie ("username".data) (cookieHeader s.jar)) <;>
    simp only [htr, Bool.false_eq_true, if_false, if_true] <;>
    split <;>
    first
      | rfl
      | (split <;> rfl)

/-- The jar a submission leaves behind: unchanged when a truthy cookie
exists, upserted with the derived name otherwise. -/
theorem handleFormSubmit_jar (o : FetchOutcome) (rng : Nat → Bool)
    (date : String) (s : PageState) :
    (handleFormSubmit o rng date s).1.jar
      = if truthyOpt (getCookie ("username".data) (cookieHeader s.jar)) then s.jar
        else setCookie ("username".data)
          (if s.nameField.isEmpty then "Anonymous".data else s.nameField) 7 s.jar := by
  unfold handleFormSubmit
  cases htr : truthyOpt (getCookie ("username".data) (cookieHeader s.jar)) <;>
    simp only [htr, Bool.false_eq_true, if_false, if_true]
  all_goals
    (split
     · rfl
     · split
       · rfl
       · rename_i s' heq'
         have h1 := fetchQuestions_frame o rng (checkUsername s')
         have h2 := checkUsername_frame s'
         have h3 := displayScoresState_frame _ _ heq'
         rw [h1.1, h2.1, h3.1])

/-- The blob a submission leaves behind when the stored value is an array
`l`: the same array with the submission's entry appended, recorded under
`submitUser s`. -/
theorem handleFormSubmit_blob (o : FetchOutcome) (rng : Nat → Bool)
    (date : String) (s : PageState) (l : List Json)
    (hblob : s.blob = Blob.val (Json.arr l)) :
    (handleFormSubmit o rng date s).1.blob
      = Blob.val (Json.arr (l ++ [scoreEntry (String.mk (submitUser s))
          (calculateScore s.groups) date])) := by
  unfold handleFormSubmit
  cases htr : truthyOpt (getCookie ("username".data) (cookieHeader s.jar)) <;>
    simp only [htr, Bool.false_eq_true, if_false, if_true]
  all_goals (
    split
    · rename_i e heq
      simp [saveScore, loadScores, jsonParseBlob, Json.truthy, hblob] at heq
    · rename_i b heq
      simp [saveScore, loadScores, jsonParseBlob, Json.truthy, hblob] at heq
      split
      · rename_i e' heq'
        rw [← heq]
        simp [submitUser, htr]
      · rename_i s' heq'
        rw [(fetchQuestions_frame o rng (checkUsername s')).2.1,
          (checkUsername_frame s').2.1,
          (displayScoresState_frame _ _ heq').2.1]
        rw [← heq]
        simp [submitUser, htr])

/-- A submission never removes a greeting: the old list is a prefix of the
new one. -/
theorem handleFormSubmit_greetings (o : FetchOutcome) (rng : Nat → Bool)
    (date : String) (s : PageState) :
    ∃ t, (handleFormSubmit o rng date s).1.greetings = s.greetings ++ t := by
  unfold handleFormSubmit
  cases htr : truthyOpt (getCookie ("username".data) (cookieHeader s.jar)) <;>
    simp only [htr, Bool.false_eq_true, if_false, if_true]
  all_goals (
    split
    · exact ⟨[], by simp⟩
    · split
      · exact ⟨[], by simp⟩
      · rename_i s' heq'
        obtain ⟨t, ht⟩ := checkUsername_greetings s'
        refine ⟨t, ?_⟩
        rw [(fetchQuestions_frame o rng (checkUsername s')).2.2, ht,
          (displayScoresState_frame _ _ heq').2.2.1])

/-- C6: on form submit, a `username` cookie write occurs if and only if no
`username` cookie identity is present (`getCookie` returns `null`); when
written its value is the name field's content or `"Anonymous"` on an empty
field; when a nonempty-valued cookie such as `"Bob"` exists, no cookie write
occurs yet the stored leaderboard still gains the submission's record. The
hypothesis excludes an externally planted empty-valued `username` cookie
(never produced by the script itself; that edge is treated separately). -/
theorem C6_submit_cookie_frame (o : FetchOutcome) (rng : Nat → Bool)
    (date : String) (s : PageState)
    (hne : getCookie ("username".data) (cookieHeader s.jar) ≠ some []) :
    ((handleFormSubmit o rng date s).2.1.cookieWrites ≠ []
        ↔ getCookie ("username".data) (cookieHeader s.jar) = none)
    ∧ (getCookie ("username".data) (cookieHeader s.jar) = none →
        (handleFormSubmit o rng date s).2.1.cookieWrites
          = [(("username".data),
              if s.nameField.isEmpty then "Anonymous".data else s.nameField)])
    ∧ (∀ u l, getCookie ("username".data) (cookieHeader s.jar) = some u →
        s.blob = Blob.val (Json.arr l) →
        (handleFormSubmit o rng date s).2.1.cookieWrites = []
        ∧ (handleFormSubmit o rng date s).1.blob
            = Blob.val (Json.arr (l ++ [scoreEntry (String.mk u)
                (calculateScore s.groups) date]))) := by
  have hw := handleFormSubmit_writes o rng date s
  refine ⟨?_, ?_, ?_⟩
  · rcases hf : getCookie ("username".data) (cookieHeader s.jar) with _ | u
    · rw [hf] at hw
      simp [truthyOpt] at hw
      simp [hw, hf]
    · have hu : u ≠ [] := fun h => hne (by rw [hf, h])
      have htr : truthyOpt (some u) = true := by
        simp [truthyOpt, jsTruthyStr, List.isEmpty_iff, hu]
      rw [hf, htr] at hw
      simp at hw
      simp [hw, hf]
  · intro hf
    rw [hf] at hw
    simpa [truthyOpt] using hw
  · intro u l hf hbl
    have hu : u ≠ [] := fun h => hne (by rw [hf, h])
    have htr : truthyOpt (getCookie ("username".data) (cookieHeader s.jar)) = true := by
      rw [hf]
      simp [truthyOpt, jsTruthyStr, List.isEmpty_iff, hu]
    constructor
    · rw [hw, if_pos htr]
    · have hb := handleFormSubmit_blob o rng date s l hbl
      rw [hb]
      have htu : truthyOpt (some u) = true := by
        simp [truthyOpt, jsTruthyStr, List.isEmpty_iff, hu]
      simp [submitUser, htr, hf, htu]

/-- Witness for C6: a fresh state (no cookie, name field "Ada") writes the
cookie once with value "Ada"; a state with an existing "Bob" cookie writes no
cookie but appends the submission's record to the empty stored array. -/
theorem C6_submit_cookie_frame_witness :
    (handleFormSubmit .rejected (fun _ => false) "2026-01-01" sAda).2.1.cookieWrites
      = [(("username".data), "Ada".data)]
    ∧ (handleFormSubmit .rejected (fun _ => false) "2026-01-01" sBob).2.1.cookieWrites
      = []
    ∧ (handleFormSubmit .rejected (fun _ => false) "2026-01-01" sBob).1.blob
      = Blob.val (Json.arr [scoreEntry "Bob" 0 "2026-01-01"]) := by
  refine ⟨?_, ?_, ?_⟩
  · have h := (C6_submit_cookie_frame .rejected (fun _ => false) "2026-01-01" sAda
      (by decide)).2.1 (by decide)
    have e : (if sAda.nameField.isEmpty then "Anonymous".data else sAda.nameField)
        = "Ada".data := by decide
    rw [e] at h
    exact h
  · exact ((C6_submit_cookie_frame .rejected (fun _ => false) "2026-01-01" sBob
      (by decide)).2.2 ("Bob".data) [] (by decide) rfl).1
  · have h := ((C6_submit_cookie_frame .rejected (fun _ => false) "2026-01-01" sBob
      (by decide)).2.2 ("Bob".data) [] (by decide) rfl).2
    have e1 : String.mk ("Bob".data) = "Bob" := by decide
    have e2 : ((calculateScore sBob.groups : Nat) : Int) = 0 := by decide
    rw [e1, e2] at h
    simpa using h

/-- C9: when a `username` cookie is present with the empty string as value,
`getCookie("username")` returns the empty string, and `handleFormSubmit`
treats it as an absent identity: it writes the cookie with the name field's
value (or "Anonymous"), the resulting jar answers that new value, and the
submission is recorded under the new name instead of the empty identity. The
hypotheses state browser jar validity and a whitespace- and semicolon-free
name field. -/
theorem C9_empty_cookie_overwritten (o : FetchOutcome) (rng : Nat → Bool)
    (date : String) (s : PageState) (js : List Cookie)
    (hjar : s.jar = js ++ [⟨"username".data, []⟩])
    (hwf : goodJar js) (hn : ∀ c ∈ js, c.name ≠ "username".data)
    (hnf1 : noSemi s.nameField = true) (hnf2 : noWS s.nameField = true) :
    getCookie ("username".data) (cookieHeader s.jar) = some []
    ∧ (handleFormSubmit o rng date s).2.1.cookieWrites
        = [(("username".data),
            if s.nameField.isEmpty then "Anonymous".data else s.nameField)]
    ∧ getCookie ("username".data)
        (cookieHeader (handleFormSubmit o rng date s).1.jar)
        = some (if s.nameField.isEmpty then "Anonymous".data else s.nameField)
    ∧ (∀ l, s.blob = Blob.val (Json.arr l) →
        (handleFormSubmit o rng date s).1.blob
          = Blob.val (Json.arr (l ++ [scoreEntry
              (String.mk (if s.nameField.isEmpty then "Anonymous".data
                else s.nameField))
              (calculateScore s.groups) date]))) := by
  have hget : getCookie ("username".data) (cookieHeader s.jar) = some [] := by
    rw [hjar]
    exact getCookie_header_found js [] hwf hn (by decide) (by decide)
  have htr : truthyOpt (getCookie ("username".data) (cookieHeader s.jar)) = false := by
    rw [hget]
    rfl
  refine ⟨hget, ?_, ?_, ?_⟩
  · rw [handleFormSubmit_writes o rng date s, if_neg (by simp [htr])]
  · rw [handleFormSubmit_jar o rng date s, if_neg (by simp [htr])]
    unfold setCookie
    rw [hjar, List.filter_append]
    have hsing : List.filter (fun c => decide (c.name ≠ "username".data))
        [(⟨"username".data, []⟩ : Cookie)] = [] := by decide
    rw [hsing, List.append_nil]
    apply getCookie_header_found
    · exact fun c hc => hwf c (mem_filter_name hc).1
    · exact fun c hc => (mem_filter_name hc).2
    · cases he : s.nameField.isEmpty
      · rw [if_neg (by simp)]
        exact hnf1
      · rw [if_pos rfl]
        decide
    · cases he : s.nameField.isEmpty
      · rw [if_neg (by simp)]
        exact hnf2
      · rw [if_pos rfl]
        decide
  · intro l hbl
    rw [handleFormSubmit_blob o rng date s l hbl]
    simp [submitUser, htr]

/-- Witness for C9 on a concrete state whose only cookie is `username=`
(empty value) and whose name field holds "Eve". -/
theorem C9_empty_cookie_overwritten_witness :
    getCookie ("username".data) (cookieHeader sEmptyCk.jar) = some []
    ∧ (handleFormSubmit .rejected (fun _ => false) "2026-01-01" sEmptyCk).2.1.cookieWrites
        = [(("username".data), "Eve".data)]
    ∧ getCookie ("username".data)
        (cookieHeader (handleFormSubmit .rejected (fun _ => false)
          "2026-01-01" sEmptyCk).1.jar) = some ("Eve".data) := by
  obtain ⟨h1, h2, h3, _⟩ := C9_empty_cookie_overwritten .rejected (fun _ => false)
    "2026-01-01" sEmptyCk [] rfl (by decide) (by decide) (by decide) (by decide)
  have e : (if sEmptyCk.nameField.isEmpty then "Anonymous".data
      else sEmptyCk.nameField) = "Eve".data := by decide
  rw [e] at h2 h3
  exact ⟨h1, h2, h3⟩

/-- C10: every `checkUsername` run with a truthy identity appends exactly one
fresh "Welcome back" greeting, and no operation of the script ever removes a
greeting: `newPlayer`, `fetchQuestions` and a successful `displayScores`
leave the greeting list unchanged, and `handleFormSubmit` only extends it. -/
theorem C10_greetings_accumulate (o : FetchOutcome) (rng : Nat → Bool)
    (date : String) (s : PageState) :
    (truthyOpt (getCookie ("username".data) (cookieHeader s.jar)) = true →
      (checkUsername s).greetings
        = s.greetings
            ++ [mkGreeting ((getCookie ("username".data) (cookieHeader s.jar)).getD [])])
    ∧ (newPlayer s).greetings = s.greetings
    ∧ (fetchQuestions o rng s).1.greetings = s.greetings
    ∧ (∀ s', displayScoresState s = .ok s' → s'.greetings = s.greetings)
    ∧ (∃ t, (handleFormSubmit o rng date s).1.greetings = s.greetings ++ t) := by
  refine ⟨?_, rfl, (fetchQuestions_frame o rng s).2.2,
    fun s' h => (displayScoresState_frame s s' h).2.2.1,
    handleFormSubmit_greetings o rng date s⟩
  intro htr
  unfold checkUsername
  simp [htr]

/-- Witness for C10: on the "Bob" state one identity check appends exactly
the "Welcome back, Bob!" greeting, and a successful score display keeps the
greeting list. -/
theorem C10_greetings_accumulate_witness :
    (checkUsername sBob).greetings = sBob.greetings ++ [mkGreeting ("Bob".data)]
    ∧ sBob.greetings = sBob.greetings := by
  constructor
  · have h := (C10_greetings_accumulate .rejected (fun _ => false)
      "2026-01-01" sBob).1 (by decide)
    have e : (getCookie ("username".data) (cookieHeader sBob.jar)).getD []
        = "Bob".data := by decide
    rw [e] at h
    exact h
  · exact (C10_greetings_accumulate .rejected (fun _ => false)
      "2026-01-01" sBob).2.2.2.1 sBob rfl

end TriviaGame
